import Mathlib

/-
  Verification of the social_admin job-reprocessing / media-generation core.

  Shallow embedding of:
    app/backend/services/storage.py        (LocalFilesystemStorage, S3Storage)
    app/backend/services/job_processor.py  (JobProcessor)
    app/backend/services/trending_video.py (request_with_backoff, _is_retriable_error,
                                            _resolve_max_concurrency, PreviewDownloadManager,
                                            TrendingVideoCreator.generate_trend_video)

  Machine integers are modelled as Nat/Int, float backoff durations as Rat,
  fallible code as Except/Option, and the filesystem as an explicit set of
  file paths threaded through the storage operations.
-/

namespace SocialAdmin

/-- Minimal JSON value model: just enough to represent the payloads that
`json.dumps` serialises in `JobProcessor._record_error_details`. -/
inductive Json where
  | str (s : String)
  | num (n : Int)
  | obj (fields : List (String × Json))

/-- Whether a JSON value is an object carrying a top-level field of the given name. -/
def Json.hasField : Json → String → Bool
  | .obj fields, name => fields.any (fun f => f.1 == name)
  | _, _ => false

/-! ## Filesystem path model (for `LocalFilesystemStorage`)

An absolute path is its list of components from the filesystem root.
`Path.resolve()` is modelled lexically: it collapses `.` and `..` components
(symbolic links are out of scope). -/

/-- An absolute filesystem path, as the list of its components from the root. -/
abbrev PathC := List String

/-- Lexical model of `Path.resolve()` applied to an absolute path given by its
components: empty and `.` components vanish, `..` removes the preceding
component (at the root it stays at the root). -/
def normComps (cs : List String) : PathC :=
  cs.foldl
    (fun acc c =>
      if c == "." || c == "" then acc
      else if c == ".." then acc.dropLast
      else acc ++ [c])
    []

/-- Model of `pathlib` parsing: a path string is absolute when it starts with a slash. -/
def pathIsAbs (s : String) : Bool :=
  match s.toList with
  | c :: _ => c == '/'
  | [] => false

/-- Split a character list on slashes (the segments of `str.split` on a slash). -/
def splitSlashAux : List Char → List Char → List String
  | [], acc => [String.mk acc.reverse]
  | c :: cs, acc =>
    if c == '/' then String.mk acc.reverse :: splitSlashAux cs []
    else splitSlashAux cs (c :: acc)

/-- Model of `pathlib` parsing: the components of a path string (empty segments
produced by repeated or leading slashes are dropped, as `pathlib` does). -/
def pathComps (s : String) : List String :=
  (splitSlashAux s.toList []).filter (fun c => c ≠ "")

/-- Model of `pathlib.PurePath.suffix` on a file name: the extension including
its dot, and empty when the last dot is the first character of the name, is
missing, or ends the name. -/
def pySuffix (name : String) : String :=
  let cs := name.toList
  let n := cs.length
  match ((List.range n).filter (fun i => cs.getD i ' ' == '.')).getLast? with
  | none => ""
  | some i => if 0 < i ∧ i + 1 < n then String.mk (cs.drop i) else ""

/-- The `pathlib` suffix of the final component of a path. -/
def pathSuffix (p : PathC) : String := pySuffix (p.getLast?.getD "")

/-- Python truthiness of an `Optional[str]`: `None` and the empty string are falsy. -/
def pyTruthy : Option String → Bool
  | none => false
  | some s => s ≠ ""

/-- Whether `base` is a prefix of `p` (equality included).  This is exactly the
guard `base_path in p.parents or p == base_path` used by the local storage
backend: the parents of `p` are its strict prefixes. -/
def isUnder : PathC → PathC → Bool
  | [], _ => true
  | _ :: _, [] => false
  | b :: bs, c :: cs => b == c && isUnder bs cs

/-! ## Storage backends (`app/backend/services/storage.py`) -/

/-- Outcome kind of a failed storage operation.  `storageError` is the
repository's single `StorageError` exception type; `osError` stands for an
operating-system exception (e.g. from `shutil.copy2`) escaping unwrapped. -/
inductive StorageFailure where
  | storageError (msg : String)
  | osError (msg : String)
deriving Repr, DecidableEq

/-- Whether a failure is the repository's `StorageError` type. -/
def StorageFailure.isStorageError : StorageFailure → Bool
  | .storageError _ => true
  | .osError _ => false

/-- Result of a storage upload (`StorageResult` dataclass). -/
structure StorageResult where
  key : String
  url : Option String
deriving Repr, DecidableEq

/-- The filesystem visible to local storage: the set of existing files. -/
structure FileSystem where
  files : List PathC
deriving Repr, DecidableEq

/-- Whether a file exists. -/
def FileSystem.hasFile (fs : FileSystem) (p : PathC) : Bool := fs.files.contains p

/-- Embedding of `LocalFilesystemStorage._resolve_destination`: a truthy
destination name is rejected if absolute, otherwise joined under the base path;
a falsy one is replaced by `uuid4().hex + source.suffix`.  The resolved path
must stay under the storage root. -/
def resolveDestination (basePath : PathC) (destinationName : Option String)
    (source : PathC) (uuidHex : String) : Except StorageFailure PathC :=
  if pyTruthy destinationName then
    if pathIsAbs (destinationName.getD "") then
      .error (.storageError "Destination name must be relative when using local storage")
    else
      let finalPath := normComps (basePath ++ pathComps (destinationName.getD ""))
      if isUnder basePath finalPath then .ok finalPath
      else .error (.storageError "Destination escapes storage root")
  else
    let finalPath := normComps (basePath ++ [uuidHex ++ pathSuffix source])
    if isUnder basePath finalPath then .ok finalPath
    else .error (.storageError "Destination escapes storage root")

/-- The storage key of an uploaded file: its path relative to the root, joined
with slashes (`destination.relative_to(self.base_path)`). -/
def relativeKey (basePath finalPath : PathC) : String :=
  String.intercalate "/" (finalPath.drop basePath.length)

/-- Embedding of `LocalFilesystemStorage.upload_file`.  `copyOk` is the
environment's verdict on the `shutil.copy2` call: when the copy fails the
underlying OS exception escapes unwrapped (the source has no handler there). -/
def uploadFile (basePath : PathC) (fs : FileSystem) (source : PathC)
    (destinationName : Option String) (uuidHex : String) (copyOk : Bool) :
    Except StorageFailure (FileSystem × StorageResult) :=
  if fs.hasFile source then
    match resolveDestination basePath destinationName source uuidHex with
    | .error e => .error e
    | .ok finalPath =>
      if copyOk then
        .ok (⟨if fs.files.contains finalPath then fs.files else finalPath :: fs.files⟩,
          ⟨relativeKey basePath finalPath,
            some ("file:///" ++ String.intercalate "/" finalPath)⟩)
      else
        .error (.osError "copy2 failed")
  else
    .error (.storageError ("Source file does not exist: " ++ String.intercalate "/" source))

/-- Embedding of `LocalFilesystemStorage.delete_object`: join the key under the
root (an absolute key replaces the root, as `Path.__truediv__` does), resolve,
guard against escaping the root, then unlink — a missing target
(`FileNotFoundError`) is swallowed and the call returns normally. -/
def deleteObject (basePath : PathC) (fs : FileSystem) (key : String) :
    Except StorageFailure FileSystem :=
  let target :=
    if pathIsAbs key then normComps (pathComps key)
    else normComps (basePath ++ pathComps key)
  if isUnder basePath target then
    .ok ⟨fs.files.filter (fun p => p ≠ target)⟩
  else
    .error (.storageError "Attempted to delete outside storage root")

/-- Model of `str.strip("/")`: remove leading and trailing slashes. -/
def stripSlashes (s : String) : String :=
  String.mk (((s.toList.dropWhile (fun c => c == '/')).reverse.dropWhile
    (fun c => c == '/')).reverse)

/-- Embedding of `S3Storage._build_key`: `destination_name or uuid+suffix`,
then `f"{prefix}/{key}".strip("/")` when a prefix is configured. -/
def s3BuildKey (pfx : String) (destinationName : Option String)
    (source : PathC) (uuidHex : String) : String :=
  let key := if pyTruthy destinationName then destinationName.getD ""
             else uuidHex ++ pathSuffix source
  if pfx ≠ "" then stripSlashes (pfx ++ "/" ++ key) else key

/-- Embedding of `S3Storage.upload_file`: a missing source raises `StorageError`
before any client call; a failing client call is wrapped into `StorageError`. -/
def s3UploadFile (bucket pfx : String) (sourceExists : Bool)
    (destinationName : Option String) (source : PathC) (uuidHex : String)
    (clientOk : Bool) : Except StorageFailure StorageResult :=
  if sourceExists then
    let key := s3BuildKey pfx destinationName source uuidHex
    if clientOk then .ok ⟨key, some ("s3://" ++ bucket ++ "/" ++ key)⟩
    else .error (.storageError "Failed to upload file to S3")
  else
    .error (.storageError "Source file does not exist")

/-- Embedding of `S3Storage.delete_object`: a failing client call is wrapped
into `StorageError`. -/
def s3DeleteObject (clientOk : Bool) (key : String) : Except StorageFailure Unit :=
  if clientOk then .ok ()
  else .error (.storageError ("Failed to delete S3 object " ++ key))

/-! ## Job reprocessing (`app/backend/services/job_processor.py`) -/

/-- How the validation of one media item ends: success, a raised
`JobProcessingError` (stable code, message, context), or any other exception
(class name and message). -/
inductive MediaOutcome where
  | ok
  | procError (code msg : String) (context : List (String × Json))
  | unexpected (excName excMsg : String)

/-- Whether an outcome is a successful validation. -/
def MediaOutcome.isOk : MediaOutcome → Bool
  | .ok => true
  | _ => false

/-- The failure carried out of `_validate_job`: either the `JobProcessingError`
it raised or the unexpected exception that escaped it. -/
inductive JobFailure where
  | procError (code msg : String) (context : List (String × Json))
  | unexpected (excName excMsg : String)

/-- The `JobProcessor._ERROR_MESSAGES` table of localized user-facing messages. -/
def errorMessages (code : String) : Option String :=
  if code = "missing_media" then some "هیچ رسانه‌ای برای پردازش وظیفه یافت نشد."
  else if code = "missing_url" then some "آدرس فایل رسانه در دسترس نیست."
  else if code = "missing_file" then some "فایل رسانه‌ای که برای پردازش نیاز است یافت نشد."
  else if code = "network_error" then some "دسترسی به آدرس فایل رسانه امکان‌پذیر نبود."
  else if code = "bad_status" then some "آدرس فایل رسانه با وضعیت ناموفق پاسخ داد."
  else if code = "unexpected" then some "خطای غیرمنتظره‌ای هنگام پردازش ویدیو رخ داد."
  else none

/-- Embedding of `JobProcessor._localize_error_message`: the table entry when
present and non-empty, the default otherwise. -/
def localizeErrorMessage (code dflt : String) : String :=
  match errorMessages code with
  | some m => if m ≠ "" then m else dflt
  | none => dflt

/-- Embedding of `JobProcessor._record_error_details`: the structured payload
serialised into `Job.error_details`.  It always carries `message` and `code`
fields; a non-empty context is attached under `context`. -/
def recordErrorDetails : JobFailure → Json
  | .procError code msg context =>
    let base := [("message", Json.str (localizeErrorMessage code msg)),
                 ("code", Json.str code)]
    Json.obj (if context.isEmpty then base else base ++ [("context", Json.obj context)])
  | .unexpected excName excMsg =>
    Json.obj [("message", Json.str ((errorMessages "unexpected").getD "")),
      ("code", Json.str "unexpected"),
      ("context", Json.obj [("error", Json.str excName), ("details", Json.str excMsg)])]

/-- The per-item progress increment of `_validate_job`:
`max(80 // len(job.media), 5)` (Python floor division on ints). -/
def mediaProgressStep (n : Nat) : Int := Int.ofNat (max (80 / n) 5)

/-- One progress update of `_validate_job`:
`job.progress_percent = min(90, progress + step)`. -/
def validateStep (step p : Int) : Int := min 90 (p + step)

/-- The media-validation loop of `_validate_job`: items are validated in order;
after each successful item the progress is updated and recorded (the returned
trace lists the progress value written after each validated item); the first
failing item aborts the loop with its failure. -/
def validateLoop (step : Int) : List MediaOutcome → Int → List Int × Option JobFailure
  | [], _ => ([], none)
  | m :: rest, p =>
    match m with
    | .ok =>
      let p' := validateStep step p
      let out := validateLoop step rest p'
      (p' :: out.1, out.2)
    | .procError code msg ctx => ([], some (.procError code msg ctx))
    | .unexpected n s => ([], some (.unexpected n s))

/-- Embedding of `JobProcessor._validate_job`: a job without media raises
`missing_media`; otherwise each media item is validated in order with the
progress increment `max(80 // n, 5)` capped at 90. -/
def validateJob (outs : List MediaOutcome) (p0 : Int) : List Int × Option JobFailure :=
  if outs.isEmpty then
    ([], some (.procError "missing_media" "Job does not have any media to process" []))
  else
    validateLoop (mediaProgressStep outs.length) outs p0

/-- The persisted state of a job after one per-job run. -/
structure JobState where
  status : String
  progress : Int
  errorDetails : Option Json

/-- Embedding of `JobProcessor._process_single_job` for a job that exists:
status is set to `processing` with progress floored at 10 and the previous
error cleared; then `_validate_job` runs.  A `JobProcessingError` or any other
exception makes the job `failed` at progress 100 with the structured error
payload recorded; success makes it `completed` at progress 100 with no error. -/
def processSingleJob (initialProgress : Int) (outs : List MediaOutcome) : JobState :=
  let p0 := max initialProgress 10
  match (validateJob outs p0).2 with
  | some e => { status := "failed", progress := 100, errorDetails := some (recordErrorDetails e) }
  | none => { status := "completed", progress := 100, errorDetails := none }

/-! ## Remote media validation (`_check_remote_media`, `_verify_remote_with_get`) -/

/-- The outcome of performing one HTTP request: a response with a status code,
or a `requests.RequestException` raised while performing it. -/
inductive HttpOutcome where
  | ok (status : Nat)
  | netError (msg : String)
deriving Repr, DecidableEq

/-- The outcome of validating one remote URL, together with how many GET
requests were issued along the way. -/
structure MediaCheck where
  outcome : Except JobFailure (Nat × String)
  getRequests : Nat

/-- The `JobProcessingError` code of a failed media check, if it failed. -/
def MediaCheck.errCode (c : MediaCheck) : Option String :=
  match c.outcome with
  | .error (.procError code _ _) => some code
  | .error (.unexpected _ _) => none
  | .ok _ => none

/-- Embedding of `JobProcessor._verify_remote_with_get`: a network failure maps
to `network_error`; a response with status at least 400 maps to `bad_status`;
otherwise the ok metadata records the GET status. -/
def verifyRemoteWithGet (get : HttpOutcome) : Except JobFailure (Nat × String) :=
  match get with
  | .netError m =>
    .error (.procError "network_error" "Unable to reach remote media URL"
      [("error", Json.str m)])
  | .ok s =>
    if 400 ≤ s then
      .error (.procError "bad_status" "Remote media URL responded with an error"
        [("status_code", Json.num (Int.ofNat s)), ("method", Json.str "GET")])
    else .ok (s, "GET")

/-- Embedding of `JobProcessor._check_remote_media`.  The HEAD request is
followed by `response.raise_for_status()`, which raises `requests.HTTPError`
for every status in [400, 600) — and that exception is caught by the
surrounding `except requests.RequestException` handler, yielding
`network_error`.  Only afterwards does the source test for 405/501 (GET
fallback) and for statuses ≥ 400 (`bad_status`), so those branches are only
reachable for statuses outside [400, 600). -/
def checkRemoteMedia (head get : HttpOutcome) : MediaCheck :=
  match head with
  | .netError m =>
    ⟨.error (.procError "network_error" "Unable to reach remote media URL"
      [("error", Json.str m)]), 0⟩
  | .ok s =>
    if 400 ≤ s ∧ s < 600 then
      ⟨.error (.procError "network_error" "Unable to reach remote media URL"
        [("error", Json.str "HTTPError")]), 0⟩
    else if s = 405 ∨ s = 501 then
      ⟨verifyRemoteWithGet get, 1⟩
    else if 400 ≤ s then
      ⟨.error (.procError "bad_status" "Remote media URL responded with an error"
        [("status_code", Json.num (Int.ofNat s)), ("method", Json.str "HEAD")]), 0⟩
    else ⟨.ok (s, "HEAD"), 0⟩

/-! ## Job collection (`_collect_jobs_for_reprocessing`) and the pass driver -/

/-- A row of the `jobs` table as far as collection is concerned. -/
structure JobRow where
  id : Nat
  status : String
  createdAt : Nat
deriving Repr, DecidableEq

/-- The startup sweep: every job currently `processing` is reset to `pending`
(`UPDATE jobs SET status = pending WHERE status = processing`). -/
def resetInFlight (db : List JobRow) : List JobRow :=
  db.map (fun j => if j.status = "processing" then { j with status := "pending" } else j)

/-- Selection predicate: `Job.status.in_(["pending", "failed"])`. -/
def eligible (j : JobRow) : Bool := j.status = "pending" || j.status = "failed"

/-- The `ORDER BY created_at ASC` ordering on job rows. -/
def byCreatedAt (a b : JobRow) : Prop := a.createdAt ≤ b.createdAt

instance : DecidableRel byCreatedAt :=
  fun a b => inferInstanceAs (Decidable (a.createdAt ≤ b.createdAt))

instance : IsTotal JobRow byCreatedAt := ⟨fun a b => Nat.le_total a.createdAt b.createdAt⟩

instance : IsTrans JobRow byCreatedAt := ⟨fun _ _ _ h h' => Nat.le_trans h h'⟩

/-- Embedding of `JobProcessor._collect_jobs_for_reprocessing`: first the
startup sweep is applied (and committed), then the ids of jobs with status
`pending` or `failed` are returned ordered by creation time ascending.
The result is the committed table together with the selected ids. -/
def collectJobsForReprocessing (db : List JobRow) : List JobRow × List Nat :=
  let committed := resetInFlight db
  (committed, (List.insertionSort byCreatedAt (committed.filter eligible)).map (fun j => j.id))

/-- The per-job loop of `process_pending_jobs`: each job id is handed to the
per-job runner inside a `try`/`except` that logs and continues, so a runner
failure (second component) never stops the remaining ids from being processed. -/
def runJobs {σ : Type} (proc : Nat → σ → σ × Option String) : List Nat → σ → σ
  | [], s => s
  | id :: rest, s => runJobs proc rest (proc id s).1

/-- Embedding of `JobProcessor.process_pending_jobs` in the exception monad:
a failure while listing the jobs is caught, logged and aborts the pass with the
store untouched; otherwise every listed job is run through the guarded per-job
loop.  The function never returns `.error`: no exception reaches the caller. -/
def processPendingJobs {σ : Type} (collect : σ → Except String (σ × List Nat))
    (proc : Nat → σ → σ × Option String) (s : σ) : Except String σ :=
  match collect s with
  | .error _ => .ok s
  | .ok (s', ids) => .ok (runJobs proc ids s')

/-! ## Retry with backoff (`request_with_backoff`, `_is_retriable_error`) -/

/-- The `requests.RequestException` kinds the retry classifier distinguishes:
malformed-URL/schema errors, `HTTPError` (with the status of its attached
response, when any), and every other request exception (connection errors,
timeouts, ...). -/
inductive ReqError where
  | invalidUrl
  | httpError (status : Option Nat)
  | otherError
deriving Repr, DecidableEq

/-- Embedding of `_is_retriable_error`: URL/schema errors are not retried;
an `HTTPError` is retried exactly when it has no response or its status is 429
or at least 500; everything else is retried. -/
def isRetriableError : ReqError → Bool
  | .invalidUrl => false
  | .httpError none => true
  | .httpError (some s) => s == 429 || 500 ≤ s
  | .otherError => true

/-- What one attempt of the request (including `raise_for_status`) produces. -/
inductive Attempt where
  | success
  | failure (e : ReqError)

/-- The observable outcome of `request_with_backoff`: whether it returned a
response or raised, which error it raised, how many attempts it performed, and
the sleep durations it computed between attempts (a zero entry means
`time.sleep` was skipped). -/
structure RunResult where
  succeeded : Bool
  raised : Option ReqError
  attempts : Nat
  sleeps : List ℚ

/-- The backoff delay before retrying after a failed attempt:
`min(max_backoff, min_backoff * 2 ** (attempt - 1))`, and 0 when the minimum
backoff is 0 (in which case no sleep happens). -/
def backoffSleep (bmin bmax : ℚ) (attempt : Nat) : ℚ :=
  if 0 < bmin then min bmax (bmin * 2 ^ (attempt - 1)) else 0

/-- The `while True` loop of `request_with_backoff`, in terms of the number of
retries still allowed (`remaining = attempts_limit - attempt`).  A success
returns at once; a non-retriable error raises at once; a retriable error with
retries remaining sleeps and retries; and with no retry remaining
(`attempt >= attempts_limit`) the last error is raised. -/
def backoffLoop (o : Nat → Attempt) (bmin bmax : ℚ) : Nat → Nat → RunResult
  | 0, attempt =>
    match o attempt with
    | .success => ⟨true, none, attempt, []⟩
    | .failure e => ⟨false, some e, attempt, []⟩
  | remaining + 1, attempt =>
    match o attempt with
    | .success => ⟨true, none, attempt, []⟩
    | .failure e =>
      if isRetriableError e then
        let rest := backoffLoop o bmin bmax remaining (attempt + 1)
        ⟨rest.succeeded, rest.raised, rest.attempts,
          backoffSleep bmin bmax attempt :: rest.sleeps⟩
      else ⟨false, some e, attempt, []⟩

/-- The process-wide defaults (`settings.trending_request_backoff`). -/
structure BackoffSettings where
  maxAttempts : Int
  minSeconds : ℚ
  maxSeconds : ℚ

/-- Model of `max_attempts or settings.max_attempts`: Python `or` falls back on
`None` and on the falsy value 0. -/
def resolveOrDefault (arg : Option Int) (dflt : Int) : Int :=
  match arg with
  | none => dflt
  | some v => if v = 0 then dflt else v

/-- Embedding of `request_with_backoff`: resolve the attempt limit and backoff
bounds from the arguments and the settings, clamp them
(`max(1, limit)`, `max(0, min)`, `max(min, max)`), then run the retry loop
starting at attempt 1. -/
def requestWithBackoff (settings : BackoffSettings) (maxAttempts : Option Int)
    (minBackoff maxBackoff : Option ℚ) (o : Nat → Attempt) : RunResult :=
  let attemptsLimit0 := resolveOrDefault maxAttempts settings.maxAttempts
  let backoffMin0 := minBackoff.getD settings.minSeconds
  let backoffMax0 := maxBackoff.getD settings.maxSeconds
  let attemptsLimit := max 1 attemptsLimit0
  let backoffMin := max 0 backoffMin0
  let backoffMax := max (if 0 < backoffMin then backoffMin else 0) backoffMax0
  backoffLoop o backoffMin backoffMax (attemptsLimit.toNat - 1) 1

/-- An endpoint that fails retriably on attempts `1..N` with errors `e i` and
succeeds on attempt `N + 1` — the flaky-endpoint scenario of the claim. -/
def failsThenSucceeds (o : Nat → Attempt) (e : Nat → ReqError) (N : Nat) : Prop :=
  (∀ i, 1 ≤ i → i ≤ N → o i = .failure (e i) ∧ isRetriableError (e i) = true) ∧
    o (N + 1) = .success

/-! ## Preview download concurrency (`_resolve_max_concurrency`,
`PreviewDownloadManager`) -/

/-- Strip leading and trailing whitespace from a character list (`str.strip`). -/
def trimChars (cs : List Char) : List Char :=
  ((cs.dropWhile Char.isWhitespace).reverse.dropWhile Char.isWhitespace).reverse

/-- Accumulate a decimal digit string into a natural number. -/
def digitsToNat : List Char → Nat → Nat
  | [], acc => acc
  | c :: cs, acc => digitsToNat cs (acc * 10 + (c.toNat - 48))

/-- Model of Python `int(str)` as used on the environment value: surrounding
whitespace is stripped, an optional sign is honoured, and everything else must
be decimal digits. -/
def pyIntParse (s : String) : Option Int :=
  let t := trimChars s.toList
  let core := match t with
    | c :: cs => if c == '-' || c == '+' then cs else t
    | [] => t
  let sign : Int := match t with
    | c :: _ => if c == '-' then -1 else 1
    | [] => 1
  if core.isEmpty then none
  else if core.all Char.isDigit then some (sign * Int.ofNat (digitsToNat core 0))
  else none

/-- The module constant `_DEFAULT_MAX_CONCURRENCY`. -/
def defaultMaxConcurrency : Int := 3

/-- Embedding of `_resolve_max_concurrency` on the raw environment value
(`None` when the variable is unset).  The second component records whether a
warning was logged: the unset case returns the default silently; a value that
fails to parse or is below 1 falls back to the default with a warning. -/
def resolveMaxConcurrency (raw : Option String) : Int × Bool :=
  match raw with
  | none => (defaultMaxConcurrency, false)
  | some s =>
    match pyIntParse s with
    | none => (defaultMaxConcurrency, true)
    | some v => if v < 1 then (defaultMaxConcurrency, true) else (v, false)

/-- The download manager, keeping only the resolved concurrency bound. -/
structure PreviewDownloadManager where
  maxConcurrency : Int
deriving Repr, DecidableEq

/-- Embedding of `PreviewDownloadManager.__init__`: a bound below 1 raises
`ValueError`. -/
def mkPreviewDownloadManager (maxConcurrency : Int) :
    Except String PreviewDownloadManager :=
  if maxConcurrency < 1 then .error "max_concurrency must be at least 1"
  else .ok ⟨maxConcurrency⟩

/-! ## Trending pipeline (`TrendingVideoCreator.generate_trend_video`,
backend version) -/

/-- The exception that ends a pipeline run, by the stage that raised it. -/
inductive StepError where
  | downloadError
  | renderError
  | uploadError (e : StorageFailure)
  | commitError
  | copyError
deriving Repr, DecidableEq

/-- A call the pipeline makes against the storage service. -/
inductive StorageAction where
  | upload (key : String)
  | delete (key : String)
deriving Repr, DecidableEq

/-- The environment of one `generate_trend_video` run: the verdicts of the
external steps (preview download, render, storage upload, JobMedia
registration/commit, optional local copy). -/
structure PipelineEnv where
  downloadOk : Bool
  renderOk : Bool
  uploadOutcome : Except StorageFailure StorageResult
  hasDbSession : Bool
  commitOk : Bool
  wantsLocalCopy : Bool
  localCopyOk : Bool

/-- What a pipeline run produced and which storage calls it made. -/
structure PipelineRun where
  result : Except StepError StorageResult
  actions : List StorageAction
deriving Repr

/-- Embedding of the backend `TrendingVideoCreator.generate_trend_video`
(app/backend/services/trending_video.py).  Stages run in order: download the
preview, render the video, upload it, register/commit the JobMedia row when a
session is attached, then optionally copy the file to a local path.  Each
`_log_stage` context re-raises the stage's exception, and this version has no
rollback handler: after a successful upload, a failure of a later stage
propagates without any `delete_object` call being made. -/
def generateTrendVideo (env : PipelineEnv) : PipelineRun :=
  if env.downloadOk then
    if env.renderOk then
      match env.uploadOutcome with
      | .error e => ⟨.error (.uploadError e), []⟩
      | .ok res =>
        let acts := [StorageAction.upload res.key]
        if env.hasDbSession ∧ ¬ env.commitOk then ⟨.error .commitError, acts⟩
        else if env.wantsLocalCopy ∧ ¬ env.localCopyOk then ⟨.error .copyError, acts⟩
        else ⟨.ok res, acts⟩
    else ⟨.error .renderError, []⟩
  else ⟨.error .downloadError, []⟩

/-! ## Theorems -/

/-- The target path `(self.base_path / key).resolve()` used by `delete_object`:
an absolute key replaces the base, a relative one is joined under it. -/
def deleteTarget (basePath : PathC) (key : String) : PathC :=
  if pathIsAbs key then normComps (pathComps key)
  else normComps (basePath ++ pathComps key)

theorem deleteObject_eq_target (basePath : PathC) (fs : FileSystem) (key : String) :
    deleteObject basePath fs key =
      (if isUnder basePath (deleteTarget basePath key) then
        .ok ⟨fs.files.filter (fun p => p ≠ deleteTarget basePath key)⟩
      else .error (.storageError "Attempted to delete outside storage root")) := rfl

/-- C10: deleting a key whose resolved target does not exist returns normally
and leaves storage untouched, so deleting the same key twice equals deleting it
once; a key whose resolved path escapes the storage root raises `StorageError`
and deletes nothing. -/
theorem deleteObject_missing_idempotent_and_guard (basePath : PathC)
    (fs : FileSystem) (key : String) :
    (deleteTarget basePath key ∉ fs.files →
      isUnder basePath (deleteTarget basePath key) = true →
      deleteObject basePath fs key = .ok fs) ∧
    (∀ fs', deleteObject basePath fs key = .ok fs' →
      deleteObject basePath fs' key = .ok fs') ∧
    (isUnder basePath (deleteTarget basePath key) = false →
      deleteObject basePath fs key =
        .error (.storageError "Attempted to delete outside storage root")) := by
  refine ⟨?_, ?_, ?_⟩
  · intro hmem hunder
    rw [deleteObject_eq_target, if_pos hunder]
    have hfilter : fs.files.filter (fun p => p ≠ deleteTarget basePath key) = fs.files := by
      apply List.filter_eq_self.mpr
      intro a ha
      simp only [ne_eq, decide_eq_true_eq]
      intro hEq
      exact hmem (hEq ▸ ha)
    rw [hfilter]
  · intro fs' hok
    rw [deleteObject_eq_target] at hok ⊢
    by_cases hunder : isUnder basePath (deleteTarget basePath key)
    · rw [if_pos hunder] at hok ⊢
      obtain rfl : (⟨fs.files.filter (fun p => p ≠ deleteTarget basePath key)⟩ : FileSystem) = fs' := by
        injection hok
      have hff : (fs.files.filter (fun p => p ≠ deleteTarget basePath key)).filter
          (fun p => p ≠ deleteTarget basePath key) =
          fs.files.filter (fun p => p ≠ deleteTarget basePath key) :=
        List.filter_eq_self.mpr (fun a ha => (List.mem_filter.mp ha).2)
      exact congrArg (fun l => Except.ok (⟨l⟩ : FileSystem)) hff
    · rw [if_neg hunder] at hok
      exact absurd hok (by simp)
  · intro hunder
    rw [deleteObject_eq_target, if_neg (by simp [hunder])]

/-- C10 witness: deleting a key that resolves to a missing file under the root
returns the filesystem unchanged. -/
theorem deleteObject_missing_idempotent_and_guard_witness :
    deleteObject ["srv"] ⟨[["srv", "a.mp4"]]⟩ "b.mp4" = .ok ⟨[["srv", "a.mp4"]]⟩ :=
  (deleteObject_missing_idempotent_and_guard ["srv"] ⟨[["srv", "a.mp4"]]⟩ "b.mp4").1
    (by decide) (by decide)

/-- C8 counterexample: with the source present and a valid relative destination,
a failing `shutil.copy2` escapes `LocalFilesystemStorage.upload_file` as the
underlying OS error, not as the single `StorageError` type the claim
promises for all upload failures. -/
theorem uploadFile_oserror_counterexample :
    uploadFile ["srv"] ⟨[["tmp", "v.mp4"]]⟩ ["tmp", "v.mp4"] (some "c.mp4") "u1" false =
      .error (.osError "copy2 failed") ∧
    StorageFailure.isStorageError (.osError "copy2 failed") = false := by
  exact ⟨rfl, rfl⟩

theorem resolveDestination_error_isStorageError (basePath : PathC)
    (destinationName : Option String) (source : PathC) (uuidHex : String)
    (f : StorageFailure)
    (h : resolveDestination basePath destinationName source uuidHex = .error f) :
    f.isStorageError = true := by
  unfold resolveDestination at h
  dsimp only at h
  repeat' split at h
  all_goals
    first
    | (injection h with h; rw [← h]; rfl)
    | (injection h)

/-- C8 (amended): `upload_file` raises `StorageError` for a missing source
before touching the filesystem (even when the copy step would fail), raises
`StorageError` for absolute destination names and for destinations resolving
outside the storage root, generates `uuid4().hex + source.suffix` when no
destination name is given, and — with the local copy step succeeding — every
local failure, as well as every S3 upload/delete failure, is a `StorageError`. -/
theorem uploadFile_spec (basePath : PathC) (fs : FileSystem) (source : PathC)
    (destinationName : Option String) (uuidHex : String) (copyOk : Bool) :
    (fs.hasFile source = false →
      uploadFile basePath fs source destinationName uuidHex copyOk =
        .error (.storageError ("Source file does not exist: " ++
          String.intercalate "/" source))) ∧
    (∀ d, destinationName = some d → d ≠ "" → pathIsAbs d = true →
      fs.hasFile source = true →
      uploadFile basePath fs source destinationName uuidHex copyOk =
        .error (.storageError "Destination name must be relative when using local storage")) ∧
    (∀ d, destinationName = some d → d ≠ "" → pathIsAbs d = false →
      isUnder basePath (normComps (basePath ++ pathComps d)) = false →
      fs.hasFile source = true →
      uploadFile basePath fs source destinationName uuidHex copyOk =
        .error (.storageError "Destination escapes storage root")) ∧
    (pyTruthy destinationName = false →
      isUnder basePath (normComps (basePath ++ [uuidHex ++ pathSuffix source])) = true →
      resolveDestination basePath destinationName source uuidHex =
        .ok (normComps (basePath ++ [uuidHex ++ pathSuffix source]))) ∧
    (copyOk = true → ∀ f, uploadFile basePath fs source destinationName uuidHex copyOk =
      .error f → f.isStorageError = true) ∧
    (∀ bucket pfx sourceExists clientOk f,
      s3UploadFile bucket pfx sourceExists destinationName source uuidHex clientOk =
        .error f → f.isStorageError = true) ∧
    (∀ clientOk key f, s3DeleteObject clientOk key = .error f → f.isStorageError = true) := by
  refine ⟨?_, ?_, ?_, ?_, ?_, ?_, ?_⟩
  · intro hmiss
    unfold uploadFile
    rw [hmiss]
    simp
  · intro d hd hne habs hsome
    subst hd
    unfold uploadFile
    rw [hsome]
    unfold resolveDestination
    have ht : pyTruthy (some d) = true := by simp [pyTruthy, hne]
    simp [ht, habs]
  · intro d hd hne habs hout hsome
    subst hd
    unfold uploadFile
    rw [hsome]
    unfold resolveDestination
    have ht : pyTruthy (some d) = true := by simp [pyTruthy, hne]
    simp [ht, habs, hout]
  · intro hfalsy hin
    unfold resolveDestination
    simp [hfalsy, hin]
  · intro hcopy f hEq
    subst hcopy
    unfold uploadFile at hEq
    by_cases hsome : fs.hasFile source = true
    · rw [if_pos hsome] at hEq
      cases hres : resolveDestination basePath destinationName source uuidHex with
      | error e =>
        rw [hres] at hEq
        injection hEq with h
        subst h
        exact resolveDestination_error_isStorageError basePath destinationName source uuidHex _ hres
      | ok p =>
        rw [hres] at hEq
        simp at hEq
    · rw [if_neg hsome] at hEq
      injection hEq with h
      subst h
      rfl
  · intro bucket pfx sourceExists clientOk f hEq
    unfold s3UploadFile at hEq
    dsimp only at hEq
    repeat' split at hEq
    all_goals
      first
      | (injection hEq with h; rw [← h]; rfl)
      | (injection hEq)
  · intro clientOk key f hEq
    unfold s3DeleteObject at hEq
    repeat' split at hEq
    all_goals
      first
      | (injection hEq with h; rw [← h]; rfl)
      | (injection hEq)

/-- C8 witness: a missing source is rejected with a `StorageError` even though
the copy step would have failed, and an absolute destination name is rejected
with a `StorageError`. -/
theorem uploadFile_spec_witness :
    uploadFile ["srv"] ⟨[]⟩ ["tmp", "v.mp4"] (some "c.mp4") "u1" false =
      .error (.storageError ("Source file does not exist: " ++
        String.intercalate "/" ["tmp", "v.mp4"])) ∧
    uploadFile ["srv"] ⟨[["tmp", "v.mp4"]]⟩ ["tmp", "v.mp4"] (some "/etc/x") "u1" true =
      .error (.storageError "Destination name must be relative when using local storage") := by
  constructor
  · exact (uploadFile_spec ["srv"] ⟨[]⟩ ["tmp", "v.mp4"] (some "c.mp4") "u1" false).1 (by decide)
  · exact (uploadFile_spec ["srv"] ⟨[["tmp", "v.mp4"]]⟩ ["tmp", "v.mp4"] (some "/etc/x") "u1"
      true).2.1 "/etc/x" rfl (by decide) (by decide) (by decide)

/-- C2: evaluating the remote media check at a HEAD response with status 405
shows that `raise_for_status()` turns it into a caught `RequestException` and
the check fails with `network_error` without issuing any GET request — the
405/501 GET-fallback branch is unreachable, contradicting the claim (and the
repository's own test `test_processor_falls_back_to_get_when_head_not_allowed`,
which expects exactly one streamed GET and a classification taken from the
GET's status). -/
theorem checkRemoteMedia_head405_no_get_fallback :
    (checkRemoteMedia (.ok 405) (.ok 200)).getRequests = 0 ∧
    (checkRemoteMedia (.ok 405) (.ok 200)).errCode = some "network_error" ∧
    (checkRemoteMedia (.ok 501) (.ok 200)).getRequests = 0 ∧
    (checkRemoteMedia (.ok 501) (.ok 200)).errCode = some "network_error" ∧
    verifyRemoteWithGet (.ok 200) = .ok (200, "GET") := by
  refine ⟨rfl, rfl, rfl, rfl, rfl⟩

/-- C3: evaluating the backend `generate_trend_video` on a run where the
storage upload succeeds (key `trend.mp4`) and the subsequent JobMedia
registration/commit fails shows that the original exception propagates but the
only storage call made is the upload — no `delete_object` rollback is
attempted, contradicting the claim (and the rollback policy implemented by the
legacy `app/services/trending_video.py` variant of the same method). -/
theorem generateTrendVideo_commit_failure_no_rollback :
    generateTrendVideo ⟨true, true, .ok ⟨"trend.mp4", some "file:///srv/trend.mp4"⟩,
        true, false, false, true⟩ =
      ⟨.error .commitError, [StorageAction.upload "trend.mp4"]⟩ := by
  rfl

/-- C9 counterexample: when the environment variable is unset, the resolver
returns the default 3 silently — no warning is logged, contrary to the claim
that the unset case also warns. -/
theorem resolveMaxConcurrency_unset_counterexample :
    resolveMaxConcurrency none = (defaultMaxConcurrency, false) ∧
    ((defaultMaxConcurrency, false) : Int × Bool) ≠ (defaultMaxConcurrency, true) := by
  exact ⟨rfl, by decide⟩

/-- C9 (amended): the resolved concurrency is the parsed value when it is an
integer at least 1; a non-integer or sub-1 value falls back to the default 3
with a warning; an unset variable falls back to 3 silently; and constructing
`PreviewDownloadManager` directly with a bound below 1 raises. -/
theorem resolveMaxConcurrency_spec (s : String) (v : Int) :
    (pyIntParse s = some v → 1 ≤ v → resolveMaxConcurrency (some s) = (v, false)) ∧
    (pyIntParse s = none → resolveMaxConcurrency (some s) = (defaultMaxConcurrency, true)) ∧
    (pyIntParse s = some v → v < 1 →
      resolveMaxConcurrency (some s) = (defaultMaxConcurrency, true)) ∧
    resolveMaxConcurrency none = (defaultMaxConcurrency, false) ∧
    (v < 1 → mkPreviewDownloadManager v =
      .error "max_concurrency must be at least 1") ∧
    (1 ≤ v → mkPreviewDownloadManager v = .ok ⟨v⟩) := by
  refine ⟨?_, ?_, ?_, rfl, ?_, ?_⟩
  · intro hp h1
    simp only [resolveMaxConcurrency]
    rw [hp]
    simp only [if_neg (by omega : ¬ v < 1)]
  · intro hp
    simp only [resolveMaxConcurrency]
    rw [hp]
  · intro hp hlt
    simp only [resolveMaxConcurrency]
    rw [hp]
    simp [hlt]
  · intro hlt
    unfold mkPreviewDownloadManager
    rw [if_pos hlt]
  · intro h1
    unfold mkPreviewDownloadManager
    rw [if_neg (by omega)]

/-- C9 witness: the value 7 from the environment is accepted without warning
and yields a manager with that bound. -/
theorem resolveMaxConcurrency_spec_witness :
    resolveMaxConcurrency (some "7") = (7, false) ∧
    mkPreviewDownloadManager 7 = .ok ⟨7⟩ := by
  exact ⟨(resolveMaxConcurrency_spec "7" 7).1 (by decide) (by decide),
    (resolveMaxConcurrency_spec "7" 7).2.2.2.2.2 (by decide)⟩

theorem validateLoop_snd_none_iff (step : Int) (outs : List MediaOutcome) (p : Int) :
    (validateLoop step outs p).2 = none ↔ outs.all MediaOutcome.isOk = true := by
  induction outs generalizing p with
  | nil => simp [validateLoop]
  | cons m rest ih =>
    cases m with
    | ok => simpa [validateLoop, MediaOutcome.isOk] using ih (validateStep step p)
    | procError c msg ctx => simp [validateLoop, MediaOutcome.isOk]
    | unexpected n s => simp [validateLoop, MediaOutcome.isOk]

theorem validateJob_snd_none_iff (outs : List MediaOutcome) (p : Int) :
    (validateJob outs p).2 = none ↔ (outs ≠ [] ∧ outs.all MediaOutcome.isOk = true) := by
  cases outs with
  | nil => simp [validateJob]
  | cons m rest =>
    simp [validateJob, validateLoop_snd_none_iff]

theorem recordErrorDetails_hasField_code (e : JobFailure) :
    (recordErrorDetails e).hasField "code" = true := by
  cases e with
  | procError code msg ctx =>
    by_cases h : ctx.isEmpty <;> simp [recordErrorDetails, Json.hasField, h]
  | unexpected n s => simp [recordErrorDetails, Json.hasField]

/-- C1 counterexample: a job with no attached media items has every attached
media item vacuously validated, yet the per-job run marks it `failed` (with
code `missing_media`), not `completed` — refuting the claim's iff at the
empty-media job. -/
theorem processSingleJob_empty_media_counterexample :
    (processSingleJob 0 []).status = "failed" ∧
    ([] : List MediaOutcome).all MediaOutcome.isOk = true ∧
    ("failed" : String) ≠ "completed" := by
  exact ⟨rfl, rfl, by decide⟩

/-- C1 (amended): for a job with at least one attached media item, the per-job
run ends `completed` with progress 100 and a cleared `error_details` iff every
media item validated successfully; whenever any media item fails (or an
unexpected exception occurs during validation) the job ends `failed` with
progress 100 and a structured, JSON-serialisable error payload containing a
`code` field; a job with no media ends `failed` the same way (code
`missing_media`). -/
theorem processSingleJob_terminal_spec (p0 : Int) (outs : List MediaOutcome) :
    (outs ≠ [] →
      (((processSingleJob p0 outs).status = "completed" ∧
        (processSingleJob p0 outs).progress = 100 ∧
        (processSingleJob p0 outs).errorDetails = none) ↔
        outs.all MediaOutcome.isOk = true)) ∧
    (outs.all MediaOutcome.isOk = false →
      ((processSingleJob p0 outs).status = "failed" ∧
        (processSingleJob p0 outs).progress = 100 ∧
        ∃ payload, (processSingleJob p0 outs).errorDetails = some payload ∧
          payload.hasField "code" = true)) ∧
    (outs = [] →
      ((processSingleJob p0 outs).status = "failed" ∧
        (processSingleJob p0 outs).progress = 100 ∧
        ∃ payload, (processSingleJob p0 outs).errorDetails = some payload ∧
          payload.hasField "code" = true)) := by
  have hiff := validateJob_snd_none_iff outs (max p0 10)
  refine ⟨?_, ?_, ?_⟩
  · intro hne
    unfold processSingleJob
    cases heq : (validateJob outs (max p0 10)).2 with
    | none =>
      simp only [heq]
      constructor
      · intro _
        exact (hiff.mp heq).2
      · intro _
        refine ⟨?_, ?_, ?_⟩ <;> trivial
    | some e =>
      simp only [heq]
      constructor
      · rintro ⟨hst, -, -⟩
        exact absurd hst (by decide)
      · intro hall
        have hnone := hiff.mpr ⟨hne, hall⟩
        rw [heq] at hnone
        exact absurd hnone (by simp)
  · intro hall
    unfold processSingleJob
    cases heq : (validateJob outs (max p0 10)).2 with
    | none =>
      rw [(hiff.mp heq).2] at hall
      exact absurd hall (by simp)
    | some e =>
      simp only [heq]
      refine ⟨?_, ?_, recordErrorDetails e, ?_, recordErrorDetails_hasField_code e⟩ <;> trivial
  · intro hnil
    subst hnil
    refine ⟨?_, ?_, recordErrorDetails
      (.procError "missing_media" "Job does not have any media to process" []), ?_, ?_⟩ <;> trivial

/-- C1 witness: a one-media job whose item validates ends `completed`, and a
one-media job whose item fails validation ends `failed` with a `code` field in
its error payload. -/
theorem processSingleJob_terminal_spec_witness :
    (processSingleJob 0 [MediaOutcome.ok]).status = "completed" ∧
    (processSingleJob 0 [MediaOutcome.procError "bad_status" "boom" []]).status = "failed" := by
  constructor
  · exact (((processSingleJob_terminal_spec 0 [MediaOutcome.ok]).1
      (List.cons_ne_nil _ _)).mpr rfl).1
  · exact ((processSingleJob_terminal_spec 0
      [MediaOutcome.procError "bad_status" "boom" []]).2.1 rfl).1

theorem min90_step (x y : Int) (hy : 0 ≤ y) :
    min 90 (min 90 x + y) = min 90 (x + y) := by
  rcases le_total x 90 with h | h
  · rw [min_eq_right h]
  · rw [min_eq_left h, min_eq_left (by omega : (90 : Int) ≤ 90 + y),
      min_eq_left (by omega : (90 : Int) ≤ x + y)]

theorem validateLoop_trace_length (step : Int) (outs : List MediaOutcome) (p : Int) :
    (validateLoop step outs p).1.length = (outs.takeWhile MediaOutcome.isOk).length := by
  induction outs generalizing p with
  | nil => simp [validateLoop]
  | cons m rest ih =>
    cases m with
    | ok => simp [validateLoop, List.takeWhile_cons, MediaOutcome.isOk, ih]
    | procError c msg ctx => simp [validateLoop, List.takeWhile_cons, MediaOutcome.isOk]
    | unexpected n s => simp [validateLoop, List.takeWhile_cons, MediaOutcome.isOk]

theorem validateLoop_trace_getD (step : Int) (hstep : 0 ≤ step)
    (outs : List MediaOutcome) (p : Int) :
    ∀ k, k < (validateLoop step outs p).1.length →
      (validateLoop step outs p).1.getD k 0 = min 90 (p + ((k : Int) + 1) * step) := by
  induction outs generalizing p with
  | nil => intro k hk; simp [validateLoop] at hk
  | cons m rest ih =>
    cases m with
    | ok =>
      intro k hk
      cases k with
      | zero => simp [validateLoop, validateStep]
      | succ k =>
        have hk' : k < (validateLoop step rest (validateStep step p)).1.length := by
          simpa [validateLoop] using hk
        have hrec := ih (validateStep step p) k hk'
        simp only [validateLoop, List.getD_cons_succ]
        rw [hrec]
        unfold validateStep
        rw [min90_step (p + step) (((k : Int) + 1) * step)
          (mul_nonneg (by positivity) hstep)]
        congr 1
        push_cast
        ring
    | procError c msg ctx => intro k hk; simp [validateLoop] at hk
    | unexpected n s => intro k hk; simp [validateLoop] at hk

theorem validateLoop_trace_le (step : Int) (outs : List MediaOutcome) (p : Int) :
    ∀ q ∈ (validateLoop step outs p).1, q ≤ 90 := by
  induction outs generalizing p with
  | nil => simp [validateLoop]
  | cons m rest ih =>
    cases m with
    | ok =>
      intro q hq
      simp only [validateLoop] at hq
      rcases List.mem_cons.mp hq with h | h
      · rw [h]
        exact min_le_left _ _
      · exact ih (validateStep step p) q h
    | procError c msg ctx => intro q hq; simp [validateLoop] at hq
    | unexpected n s => intro q hq; simp [validateLoop] at hq

/-- C7 counterexample: for a job with a single media item starting at progress
10, the progress written after validating the item is 90 — the per-item step is
`max(80 // 1, 5) = 80` — whereas the claim's formula `min(80 / 1, 5)` predicts
an increment of 5 and a progress of 15. -/
theorem validateJob_step_counterexample :
    (validateJob [MediaOutcome.ok] 10).1 = [90] ∧
    mediaProgressStep 1 = 80 ∧
    min 90 (10 + min ((80 : Int) / 1) 5) = 15 ∧
    ((90 : Int) ≠ 15) := by
  exact ⟨rfl, rfl, by decide, by decide⟩

/-- C7 (amended): media items are validated in order (the progress trace has
one entry per successfully validated item up to the first failure), the value
written after the k-th item is `min(90, start + (k+1) * max(80 // n, 5))`, and
every written value is at most 90 — hence below 100 — until the job reaches a
terminal status. -/
theorem validateJob_progress_spec (outs : List MediaOutcome) (p0 : Int)
    (hne : outs ≠ []) :
    (validateJob outs p0).1.length = (outs.takeWhile MediaOutcome.isOk).length ∧
    (∀ k, k < (validateJob outs p0).1.length →
      (validateJob outs p0).1.getD k 0 =
        min 90 (p0 + ((k : Int) + 1) * mediaProgressStep outs.length)) ∧
    (∀ q ∈ (validateJob outs p0).1, q ≤ 90 ∧ q < 100) := by
  have hemp : outs.isEmpty = false := by
    cases outs with
    | nil => exact absurd rfl hne
    | cons m rest => rfl
  unfold validateJob
  rw [hemp]
  simp only [Bool.false_eq_true, if_false]
  refine ⟨validateLoop_trace_length _ _ _, ?_, ?_⟩
  · exact validateLoop_trace_getD (mediaProgressStep outs.length)
      (Int.ofNat_nonneg _) outs p0
  · intro q hq
    have h90 := validateLoop_trace_le (mediaProgressStep outs.length) outs p0 q hq
    exact ⟨h90, by omega⟩

/-- C7 witness: a two-media job starting at progress 10 records two progress
values, the first being `min(90, 10 + 1 * max(80 // 2, 5)) = 50`, and every
recorded value stays at or below 90. -/
theorem validateJob_progress_spec_witness :
    (validateJob [MediaOutcome.ok, MediaOutcome.ok] 10).1.length = 2 ∧
    (validateJob [MediaOutcome.ok, MediaOutcome.ok] 10).1.getD 0 0 = 50 := by
  have h := validateJob_progress_spec [MediaOutcome.ok, MediaOutcome.ok] 10
    (List.cons_ne_nil _ _)
  refine ⟨h.1.trans rfl, ?_⟩
  have h0 := h.2.1 0 (by rw [h.1.trans rfl]; decide)
  rw [h0]
  decide

theorem resetInFlight_forall2 (db : List JobRow) :
    List.Forall₂
      (fun j j' => j'.id = j.id ∧ j'.createdAt = j.createdAt ∧
        j'.status = (if j.status = "processing" then "pending" else j.status))
      db (resetInFlight db) := by
  induction db with
  | nil => exact List.Forall₂.nil
  | cons j rest ih =>
    refine List.Forall₂.cons ?_ ih
    by_cases h : j.status = "processing" <;> simp [h]

/-- C5: the startup sweep rewrites exactly the `processing` rows to `pending`
(ids, creation times and other statuses untouched) before selection; the
selected ids are exactly the ids of the committed rows whose status is
`pending` or `failed`; the selection is ordered by creation time ascending; and
every job that was mid-flight (`processing`) is selected for the pass. -/
theorem collectJobsForReprocessing_spec (db : List JobRow) :
    List.Forall₂
      (fun j j' => j'.id = j.id ∧ j'.createdAt = j.createdAt ∧
        j'.status = (if j.status = "processing" then "pending" else j.status))
      db (collectJobsForReprocessing db).1 ∧
    List.Perm (collectJobsForReprocessing db).2
      (((collectJobsForReprocessing db).1.filter eligible).map (fun j => j.id)) ∧
    List.Sorted byCreatedAt
      (List.insertionSort byCreatedAt ((collectJobsForReprocessing db).1.filter eligible)) ∧
    (collectJobsForReprocessing db).2 =
      (List.insertionSort byCreatedAt
        ((collectJobsForReprocessing db).1.filter eligible)).map (fun j => j.id) ∧
    (∀ j ∈ db, j.status = "processing" → j.id ∈ (collectJobsForReprocessing db).2) := by
  refine ⟨resetInFlight_forall2 db, ?_, ?_, rfl, ?_⟩
  · exact (List.perm_insertionSort byCreatedAt _).map (fun j => j.id)
  · exact List.sorted_insertionSort byCreatedAt _
  · intro j hj hstatus
    have hmem : ({ j with status := "pending" } : JobRow) ∈ resetInFlight db := by
      unfold resetInFlight
      refine List.mem_map.mpr ⟨j, hj, ?_⟩
      rw [if_pos hstatus]
    have helig : eligible { j with status := "pending" } = true := by
      simp [eligible]
    have hidmem : j.id ∈ ((collectJobsForReprocessing db).1.filter eligible).map
        (fun j => j.id) := by
      refine List.mem_map.mpr ⟨{ j with status := "pending" }, ?_, rfl⟩
      exact List.mem_filter.mpr ⟨hmem, helig⟩
    have hperm := (List.perm_insertionSort byCreatedAt
      ((collectJobsForReprocessing db).1.filter eligible)).map (fun j => j.id)
    exact ((hperm).mem_iff).mpr hidmem

/-- C5 witness: on a table with a completed, a mid-flight, a failed and a
pending job, the mid-flight job is reset and selected and the pass order is by
creation time ascending. -/
theorem collectJobsForReprocessing_spec_witness :
    (collectJobsForReprocessing
      [⟨1, "completed", 5⟩, ⟨2, "processing", 9⟩, ⟨3, "failed", 1⟩, ⟨4, "pending", 7⟩]).2 =
      [3, 4, 2] ∧
    2 ∈ (collectJobsForReprocessing
      [⟨1, "completed", 5⟩, ⟨2, "processing", 9⟩, ⟨3, "failed", 1⟩, ⟨4, "pending", 7⟩]).2 := by
  constructor
  · decide
  · exact (collectJobsForReprocessing_spec
      [⟨1, "completed", 5⟩, ⟨2, "processing", 9⟩, ⟨3, "failed", 1⟩, ⟨4, "pending", 7⟩]).2.2.2.2
      ⟨2, "processing", 9⟩ (by decide) rfl

/-- C6: the reprocessing pass never propagates an exception: the driver always
returns normally; a failure while listing the jobs aborts the pass with the
store untouched and no job processed; a successful listing hands the state to
the guarded per-job loop; and inside that loop a failure of job `n` (whatever
its error) never prevents the remaining ids from being processed. -/
theorem processPendingJobs_spec {σ : Type} (collect : σ → Except String (σ × List Nat))
    (proc : Nat → σ → σ × Option String) (s : σ) :
    (∃ t, processPendingJobs collect proc s = .ok t) ∧
    (∀ e, collect s = .error e → processPendingJobs collect proc s = .ok s) ∧
    (∀ s' ids, collect s = .ok (s', ids) →
      processPendingJobs collect proc s = .ok (runJobs proc ids s')) ∧
    (∀ ids1 n ids2 t, runJobs proc (ids1 ++ n :: ids2) t =
      runJobs proc ids2 (proc n (runJobs proc ids1 t)).1) := by
  refine ⟨?_, ?_, ?_, ?_⟩
  · unfold processPendingJobs
    cases collect s with
    | error e => exact ⟨s, rfl⟩
    | ok pair => exact ⟨runJobs proc pair.2 pair.1, rfl⟩
  · intro e he
    unfold processPendingJobs
    rw [he]
  · intro s' ids hok
    unfold processPendingJobs
    rw [hok]
  · intro ids1
    induction ids1 with
    | nil => intro n ids2 t; rfl
    | cons a rest ih =>
      intro n ids2 t
      simp only [List.cons_append, runJobs]
      exact ih n ids2 (proc a t).1

/-- Inputs for the C6 witness: a listing that returns three jobs and a per-job
runner whose second job raises. -/
def collectW : Nat → Except String (Nat × List Nat) := fun s => .ok (s, [1, 2, 3])

/-- Per-job runner for the C6 witness: adds the job id to the state and fails
on job 2. -/
def procW : Nat → Nat → Nat × Option String :=
  fun id st => (st + id, if id = 2 then some "boom" else none)

/-- C6 witness: even though job 2 raises, jobs 1, 2 and 3 are all attempted and
the driver returns normally with the accumulated state. -/
theorem processPendingJobs_spec_witness :
    processPendingJobs collectW procW 0 = .ok 6 := by
  rw [(processPendingJobs_spec collectW procW 0).2.2.1 0 [1, 2, 3] rfl]
  rfl

/-- Prepend already-performed sleep durations to a loop result. -/
def withSleeps (l : List ℚ) (res : RunResult) : RunResult :=
  ⟨res.succeeded, res.raised, res.attempts, l ++ res.sleeps⟩

theorem withSleeps_nil (res : RunResult) : withSleeps [] res = res := rfl

theorem backoffLoop_success (o : Nat → Attempt) (bmin bmax : ℚ) (remaining attempt : Nat)
    (h : o attempt = .success) :
    backoffLoop o bmin bmax remaining attempt = ⟨true, none, attempt, []⟩ := by
  cases remaining with
  | zero =>
    unfold backoffLoop
    rw [h]
  | succ r =>
    unfold backoffLoop
    rw [h]

theorem backoffLoop_nonretriable (o : Nat → Attempt) (bmin bmax : ℚ)
    (remaining attempt : Nat) (e : ReqError)
    (h : o attempt = .failure e) (hr : isRetriableError e = false) :
    backoffLoop o bmin bmax remaining attempt = ⟨false, some e, attempt, []⟩ := by
  cases remaining with
  | zero =>
    unfold backoffLoop
    rw [h]
  | succ r =>
    unfold backoffLoop
    rw [h]
    simp [hr]

theorem backoffLoop_exhaust (o : Nat → Attempt) (bmin bmax : ℚ) (attempt : Nat)
    (e : ReqError) (h : o attempt = .failure e) :
    backoffLoop o bmin bmax 0 attempt = ⟨false, some e, attempt, []⟩ := by
  unfold backoffLoop
  rw [h]

theorem backoffLoop_retry (o : Nat → Attempt) (bmin bmax : ℚ) (r attempt : Nat)
    (e : ReqError) (h : o attempt = .failure e) (hr : isRetriableError e = true) :
    backoffLoop o bmin bmax (r + 1) attempt =
      withSleeps [backoffSleep bmin bmax attempt]
        (backoffLoop o bmin bmax r (attempt + 1)) := by
  conv_lhs => unfold backoffLoop
  rw [h]
  simp [hr, withSleeps]

theorem withSleeps_append (a b : List ℚ) (res : RunResult) :
    withSleeps a (withSleeps b res) = withSleeps (a ++ b) res := by
  simp [withSleeps, List.append_assoc]

theorem range_map_shift (f : Nat → ℚ) (k a : Nat) :
    (List.range (k + 1)).map (fun j => f (a + j)) =
      f a :: (List.range k).map (fun j => f (a + 1 + j)) := by
  rw [List.range_succ_eq_map, List.map_cons, List.map_map]
  refine congrArg₂ List.cons (by rw [Nat.add_zero]) ?_
  have hfun : ∀ (l : List Nat),
      l.map ((fun j => f (a + j)) ∘ Nat.succ) = l.map (fun j => f (a + 1 + j)) := by
    intro l
    induction l with
    | nil => rfl
    | cons x xs ih =>
      simp only [List.map_cons, Function.comp]
      exact congrArg₂ List.cons (congrArg f (by omega)) ih
  exact hfun (List.range k)

theorem backoffLoop_skip (o : Nat → Attempt) (bmin bmax : ℚ) :
    ∀ (k attempt r : Nat),
      (∀ i, i < k → ∃ e, o (attempt + i) = .failure e ∧ isRetriableError e = true) →
      k ≤ r →
      backoffLoop o bmin bmax r attempt =
        withSleeps ((List.range k).map (fun j => backoffSleep bmin bmax (attempt + j)))
          (backoffLoop o bmin bmax (r - k) (attempt + k)) := by
  intro k
  induction k with
  | zero =>
    intro attempt r _ _
    simp [withSleeps_nil]
  | succ k ih =>
    intro attempt r hfail hle
    obtain ⟨e, he, hre⟩ := hfail 0 (Nat.succ_pos k)
    rw [Nat.add_zero] at he
    obtain ⟨r', rfl⟩ : ∃ r', r = r' + 1 := ⟨r - 1, by omega⟩
    rw [backoffLoop_retry o bmin bmax r' attempt e he hre]
    rw [ih (attempt + 1) r'
      (fun i hi => by
        obtain ⟨e', he', hre'⟩ := hfail (i + 1) (by omega)
        exact ⟨e', by rw [← he']; congr 1; omega, hre'⟩)
      (by omega)]
    rw [withSleeps_append]
    have harg1 : r' - k = r' + 1 - (k + 1) := by omega
    have harg2 : attempt + 1 + k = attempt + (k + 1) := by omega
    rw [harg1, harg2]
    congr 1
    rw [range_map_shift (backoffSleep bmin bmax) k attempt]
    rfl

theorem requestWithBackoff_eq_loop (settings : BackoffSettings) (m : Nat)
    (bmin bmax : ℚ) (hm : 1 ≤ m) (hbmin : 0 ≤ bmin) (hbb : bmin ≤ bmax)
    (o : Nat → Attempt) :
    requestWithBackoff settings (some (m : Int)) (some bmin) (some bmax) o =
      backoffLoop o bmin bmax (m - 1) 1 := by
  have h0 : ¬ ((m : Int) = 0) := by
    intro h
    omega
  have hbmin' : max (0 : ℚ) bmin = bmin := max_eq_right hbmin
  have hbmax : max (if (0 : ℚ) < bmin then bmin else 0) bmax = bmax := by
    by_cases h : (0 : ℚ) < bmin
    · rw [if_pos h]
      exact max_eq_right hbb
    · rw [if_neg h]
      exact max_eq_right (le_trans hbmin hbb)
  simp only [requestWithBackoff, resolveOrDefault, Option.getD_some]
  rw [if_neg h0]
  rw [max_eq_right (by exact_mod_cast hm : (1 : Int) ≤ (m : Int))]
  rw [hbmin', hbmax, Int.toNat_natCast]

/-- C4: with a validly configured retry policy (`max_attempts` at least 1,
`0 ≤ min_backoff ≤ max_backoff`), `request_with_backoff` returns immediately on
a first successful response; raises immediately on a non-retryable error; for
an endpoint failing retryably N times and succeeding on attempt N + 1, with
`max_attempts = N + 1` it succeeds after N + 1 attempts having computed the
sleeps `min(max_backoff, min_backoff * 2 ** (attempt - 1))` for attempts
1..N, and with `max_attempts = N` it raises the last error after exactly N
attempts; a zero `min_backoff` means every computed sleep is 0 (no sleep), and
a positive one yields exactly the claimed formula. -/
theorem requestWithBackoff_spec (settings : BackoffSettings) (m : Nat)
    (bmin bmax : ℚ) (o : Nat → Attempt)
    (hm : 1 ≤ m) (hbmin : 0 ≤ bmin) (hbb : bmin ≤ bmax) :
    (o 1 = .success →
      requestWithBackoff settings (some (m : Int)) (some bmin) (some bmax) o =
        ⟨true, none, 1, []⟩) ∧
    (∀ e, o 1 = .failure e → isRetriableError e = false →
      requestWithBackoff settings (some (m : Int)) (some bmin) (some bmax) o =
        ⟨false, some e, 1, []⟩) ∧
    (∀ N eseq, 1 ≤ N → failsThenSucceeds o eseq N →
      (m = N + 1 →
        requestWithBackoff settings (some (m : Int)) (some bmin) (some bmax) o =
          ⟨true, none, N + 1,
            (List.range N).map (fun j => backoffSleep bmin bmax (1 + j))⟩) ∧
      (m = N →
        (requestWithBackoff settings (some (m : Int)) (some bmin) (some bmax)
          o).succeeded = false ∧
        (requestWithBackoff settings (some (m : Int)) (some bmin) (some bmax)
          o).raised = some (eseq N) ∧
        (requestWithBackoff settings (some (m : Int)) (some bmin) (some bmax)
          o).attempts = N)) ∧
    (bmin = 0 → ∀ attempt, backoffSleep bmin bmax attempt = 0) ∧
    (0 < bmin → ∀ attempt,
      backoffSleep bmin bmax attempt = min bmax (bmin * 2 ^ (attempt - 1))) := by
  have hres := requestWithBackoff_eq_loop settings m bmin bmax hm hbmin hbb o
  refine ⟨?_, ?_, ?_, ?_, ?_⟩
  · intro h
    rw [hres]
    exact backoffLoop_success o bmin bmax (m - 1) 1 h
  · intro e h hr
    rw [hres]
    exact backoffLoop_nonretriable o bmin bmax (m - 1) 1 e h hr
  · intro N eseq hN hsc
    obtain ⟨hfails, hsucc⟩ := hsc
    constructor
    · intro hmN
      rw [hres, hmN]
      rw [backoffLoop_skip o bmin bmax N 1 (N + 1 - 1)
        (fun i hi => ⟨eseq (1 + i),
          (hfails (1 + i) (by omega) (by omega)).1,
          (hfails (1 + i) (by omega) (by omega)).2⟩)
        (by omega)]
      have h1 : N + 1 - 1 - N = 0 := by omega
      rw [h1]
      rw [backoffLoop_success o bmin bmax 0 (1 + N)
        (by rw [Nat.add_comm]; exact hsucc)]
      unfold withSleeps
      simp only [List.append_nil]
      congr 1
      omega
    · intro hmN
      rw [hres, hmN]
      obtain ⟨N', rfl⟩ : ∃ N', N = N' + 1 := ⟨N - 1, by omega⟩
      have hskip := backoffLoop_skip o bmin bmax N' 1 (N' + 1 - 1)
        (fun i hi => ⟨eseq (1 + i),
          (hfails (1 + i) (by omega) (by omega)).1,
          (hfails (1 + i) (by omega) (by omega)).2⟩)
        (by omega)
      have h1 : N' + 1 - 1 - N' = 0 := by omega
      rw [h1] at hskip
      rw [hskip]
      rw [backoffLoop_exhaust o bmin bmax (1 + N') (eseq (1 + N'))
        (hfails (1 + N') (by omega) (by omega)).1]
      refine ⟨rfl, ?_, ?_⟩
      · show some (eseq (1 + N')) = some (eseq (N' + 1))
        rw [Nat.add_comm]
      · show 1 + N' = N' + 1
        omega
  · intro h0 attempt
    unfold backoffSleep
    rw [if_neg (by rw [h0]; exact lt_irrefl 0)]
  · intro hpos attempt
    unfold backoffSleep
    rw [if_pos hpos]

/-- Endpoint for the C4 witness: attempts 1 and 2 fail with a retriable
connection error, attempt 3 succeeds. -/
def oWitness : Nat → Attempt := fun i => if i ≤ 2 then .failure .otherError else .success

/-- Error sequence for the C4 witness. -/
def eWitness : Nat → ReqError := fun _ => .otherError

/-- C4 witness: with `max_attempts = 3`, `min_backoff = 1`, `max_backoff = 4`
against an endpoint failing twice then succeeding, the call succeeds on attempt
3 after sleeping 1 second and then 2 seconds. -/
theorem requestWithBackoff_spec_witness :
    requestWithBackoff ⟨5, 1, 30⟩ (some ((3 : Nat) : Int)) (some 1) (some 4) oWitness =
      ⟨true, none, 3, [1, 2]⟩ := by
  have h := ((requestWithBackoff_spec ⟨5, 1, 30⟩ 3 1 4 oWitness (by norm_num)
      (by norm_num) (by norm_num)).2.2.1 2 eWitness (by norm_num)
    ⟨fun i h1 h2 => ⟨by simp [oWitness, h2, eWitness], rfl⟩,
      by simp [oWitness]⟩).1 rfl
  rw [h]
  congr 1
  norm_num [backoffSleep, List.range_succ, min_def]

end SocialAdmin
